import Mathlib

/-!
Verification of the golf scoring and handicapping engine of the golfshot
backend: the playing-handicap formula, the Stableford engine
(strokes received and points), the Virtual Handicap calculator
(`calculate_virtual_handicap` in the rounds router, duplicated as
`calculate_vh_for_backfill` in the users router), and the statistics
aggregator of `get_my_stats` (per-hole accumulation and the time-windowed
HVP averages).

Numbers: Python floats are modelled as `ℚ`, Python ints as `ℤ` (hole
numbers in loop ranges as `ℕ`).  Python `//` and `%` are floor
division/modulus (`Int.fdiv` / `Int.fmod`); Python `round` is
round-half-to-even (`pythonRound`), and `round(x, 1)` is `round1`.
Dict lookups are association-list lookups; a dict comprehension
`{h["number"]: h for h in hs}` keeps the LAST entry for a duplicated key,
hence the lookup searches the reversed list.
-/

attribute [local semireducible] Rat.add Rat.sub Rat.mul Rat.inv Rat.ofScientific

/-- Python `round`: round half to even (banker's rounding). -/
def pythonRound (q : ℚ) : ℤ :=
  let f : ℤ := q.num.fdiv q.den
  if q - f < 1/2 then f
  else if 1/2 < q - f then f + 1
  else if f % 2 = 0 then f else f + 1

/-- Python `round(q, 1)`: round to one decimal, half to even. -/
def round1 (q : ℚ) : ℚ := (pythonRound (q * 10) : ℚ) / 10

/-- The function `calculate_playing_handicap(handicap_index, slope, percentage)` from
`rounds.py`: `playing_hcp = (handicap_index * slope) / 113;
return round(playing_hcp * percentage / 100)`. -/
def calculate_playing_handicap (handicap_index : ℚ) (slope : ℤ) (percentage : ℤ) : ℤ :=
  let playing_hcp := (handicap_index * slope) / 113
  pythonRound (playing_hcp * percentage / 100)

/-- A `Score` value of a player's `scores` dict: `strokes = score.get("strokes", 0)`,
`putts = score.get("putts", 0)` (the fields hold the result of the `get`). -/
structure Score where
  strokes : ℤ
  putts : ℤ
  deriving DecidableEq, Repr

/-- One entry of a course's `holes_data`; fields hold the results of
`h.get("number")`, `h.get("par", 4)`, `h.get("handicap", 1)`. -/
structure Hole where
  number : ℤ
  par : ℤ
  handicap : ℤ
  deriving DecidableEq, Repr

/-- One entry of a course's `tees` list. -/
structure Tee where
  name : String
  slope : ℤ
  deriving DecidableEq, Repr

/-- A player record as the engine reads it: `od_handicap_index` is the result
of `get("od_handicap_index", 0)` (`none` = stored null), `playing_handicap`
of `get("playing_handicap", 0)`, `scores` of `get("scores", {})` keyed by the
hole number. -/
structure Player where
  od_handicap_index : Option ℚ
  playing_handicap : ℤ
  tee_box : String
  scores : List (ℕ × Score)
  deriving DecidableEq, Repr

/-- Dict lookup `scores[str(hole_num)]`. -/
def lookupScore (scores : List (ℕ × Score)) (n : ℕ) : Option Score :=
  (scores.find? (fun kv => kv.1 == n)).map (fun kv => kv.2)

/-- Lookup built as `holes_lookup = {h.get("number"): h for h in holes_data}` followed by
`holes_lookup.get(hole_num)`: the last entry with the given number wins. -/
def holesLookup (holes_data : List Hole) (n : ℤ) : Option Hole :=
  holes_data.reverse.find? (fun h => h.number == n)

/-- Hole numbers in scope for a `course_length`: front9 → 1..9,
back9 → 10..18, anything else → 1..18. -/
def holesToCount (course_length : String) : List ℕ :=
  if course_length = "front9" then List.range' 1 9
  else if course_length = "back9" then List.range' 10 9
  else List.range' 1 18

/-- Strokes received on a hole (the loop body of `calculate_virtual_handicap`):
`strokes_received = 0; if effective_handicap > 0: base = eff // 18;
remainder = eff % 18; strokes_received = base + (1 if handicap_index <= remainder else 0)`. -/
def strokesReceived (effective_handicap : ℤ) (hole_handicap : ℤ) : ℤ :=
  if 0 < effective_handicap then
    effective_handicap.fdiv 18 +
      (if hole_handicap ≤ effective_handicap.fmod 18 then 1 else 0)
  else 0

/-- The Stableford points if-chain on `diff = net_score - par`. -/
def stablefordPoints (net_score : ℤ) (par : ℤ) : ℤ :=
  let diff := net_score - par
  if diff ≤ -3 then 5
  else if diff = -2 then 4
  else if diff = -1 then 3
  else if diff = 0 then 2
  else if diff = 1 then 1
  else 0

/-- The spec's Stableford table as a function of `d = net − par`. -/
def stablefordTable (d : ℤ) : ℤ :=
  if d ≤ -3 then 5
  else if d = -2 then 4
  else if d = -1 then 3
  else if d = 0 then 2
  else if d = 1 then 1
  else 0

/-- The legacy-compensation step of `calculate_virtual_handicap`:
`if playing_handicap == 0 and od_handicap_index > 0 and tees:` recompute the
playing handicap from the matching tee's slope, else keep the stored value. -/
def effectiveHandicap (od_handicap_index : ℚ) (playing_handicap : ℤ)
    (tee_box : String) (handicap_percentage : ℤ) (tees : List Tee) : ℤ :=
  if playing_handicap = 0 ∧ 0 < od_handicap_index ∧ ¬ tees.isEmpty then
    match tees.find? (fun t => t.name == tee_box) with
    | some matching_tee =>
        calculate_playing_handicap od_handicap_index matching_tee.slope handicap_percentage
    | none => playing_handicap
  else playing_handicap

/-- One iteration of the scoring loop of `calculate_virtual_handicap`:
`none` when the hole is skipped (`continue`) — no scores entry, strokes ≤ 0,
or no hole metadata — otherwise the Stableford points of the hole. -/
def holePoints (scores : List (ℕ × Score)) (holes_data : List Hole)
    (effective_handicap : ℤ) (n : ℕ) : Option ℤ :=
  match lookupScore scores n with
  | none => none
  | some score =>
    if score.strokes ≤ 0 then none
    else
      match holesLookup holes_data (n : ℤ) with
      | none => none
      | some hole_data =>
          some (stablefordPoints (score.strokes - strokesReceived effective_handicap hole_data.handicap)
            hole_data.par)

/-- The list of per-hole Stableford points accumulated by the scoring loop of
`calculate_virtual_handicap` (`total_stableford` is its sum, `holes_played`
its length). -/
def vhPoints (user_player : Player) (course_length : String) (holes_data : List Hole)
    (handicap_percentage : ℤ) (tees : List Tee) : List ℤ :=
  let eff := effectiveHandicap (user_player.od_handicap_index.getD 0)
    user_player.playing_handicap user_player.tee_box handicap_percentage tees
  (holesToCount course_length).filterMap (holePoints user_player.scores holes_data eff)

/-- The function `calculate_virtual_handicap` from `src/backend/app/routers/rounds.py`.
`use_handicap` is accepted and unused, as in the source. -/
def calculate_virtual_handicap (players : List Player) (course_length : String)
    (holes_data : List Hole) (use_handicap : Bool) (handicap_percentage : ℤ)
    (tees : List Tee) : Option ℚ :=
  match players with
  | [] => none
  | user_player :: _ =>
    if holes_data.isEmpty then none
    else if user_player.scores.isEmpty then none
    else
      match user_player.od_handicap_index with
      | none => none
      | some od_handicap_index =>
        let pts := vhPoints user_player course_length holes_data handicap_percentage tees
        if pts.isEmpty then none
        else
          let normalized : ℤ :=
            if course_length = "front9" ∨ course_length = "back9" then pts.sum * 2 else pts.sum
          some (round1 (od_handicap_index - ((normalized : ℚ) - 36)))

/-- A hole is usable by the scoring loop of `calculate_virtual_handicap`:
its scores entry exists, its strokes are positive, and its metadata exists.
This is exactly when the loop does not `continue`. -/
def holeUsable (scores : List (ℕ × Score)) (holes_data : List Hole) (n : ℕ) : Bool :=
  match lookupScore scores n with
  | none => false
  | some score => if score.strokes ≤ 0 then false else (holesLookup holes_data (n : ℤ)).isSome

/-- What one processed hole contributes to the accumulators of the
per-hole loop of `get_my_stats` (`users.py`). -/
structure HoleStats where
  strokes : ℤ
  putts : ℤ
  par : ℤ
  gross : ℤ
  points : ℤ
  girCounted : Bool
  girHit : Bool
  deriving DecidableEq, Repr

/-- One iteration of the per-hole loop of `get_my_stats`: `none` when the hole
is skipped (`continue`) — no scores entry or no hole metadata.  Unlike
`calculate_virtual_handicap`, there is no `strokes <= 0` skip here. -/
def statsHole (playing_hcp : ℤ) (scores : List (ℕ × Score)) (holes_data : List Hole)
    (n : ℕ) : Option HoleStats :=
  match lookupScore scores n with
  | none => none
  | some score =>
    match holesLookup holes_data (n : ℤ) with
    | none => none
    | some hole_data =>
      let par := hole_data.par
      let strokes := score.strokes
      let putts := score.putts
      let sr := strokesReceived playing_hcp hole_data.handicap
      some { strokes := strokes, putts := putts, par := par,
             gross := strokes - par,
             points := stablefordPoints (strokes - sr) par,
             girCounted := decide (0 < putts),
             girHit := decide (0 < putts ∧ strokes - putts ≤ par - 2) }

/-- The accumulators of the per-hole loop of `get_my_stats` for one round. -/
structure StatsRound where
  par3_strokes : List ℤ
  par4_strokes : List ℤ
  par5_strokes : List ℤ
  round_strokes : ℤ
  round_putts : ℤ
  round_par : ℤ
  round_stableford : ℤ
  total_holes_for_distribution : ℕ
  eagles_or_better : ℕ
  birdies : ℕ
  pars : ℕ
  bogeys : ℕ
  double_bogeys : ℕ
  triple_or_worse : ℕ
  gir_hit : ℕ
  gir_total : ℕ
  deriving DecidableEq, Repr

/-- The per-hole loop of `get_my_stats` over the in-scope holes of one round,
expressed through the list of processed-hole contributions. -/
def statsRound (playing_hcp : ℤ) (scores : List (ℕ × Score)) (holes_data : List Hole)
    (course_length : String) : StatsRound :=
  let hs := (holesToCount course_length).filterMap (statsHole playing_hcp scores holes_data)
  { par3_strokes := (hs.filter (fun h => h.par == 3)).map (fun h => h.strokes)
    par4_strokes := (hs.filter (fun h => h.par == 4)).map (fun h => h.strokes)
    par5_strokes := (hs.filter (fun h => h.par == 5)).map (fun h => h.strokes)
    round_strokes := (hs.map (fun h => h.strokes)).sum
    round_putts := (hs.map (fun h => h.putts)).sum
    round_par := (hs.map (fun h => h.par)).sum
    round_stableford := (hs.map (fun h => h.points)).sum
    total_holes_for_distribution := hs.length
    eagles_or_better := (hs.filter (fun h => h.gross ≤ -2)).length
    birdies := (hs.filter (fun h => h.gross == -1)).length
    pars := (hs.filter (fun h => h.gross == 0)).length
    bogeys := (hs.filter (fun h => h.gross == 1)).length
    double_bogeys := (hs.filter (fun h => h.gross == 2)).length
    triple_or_worse := (hs.filter (fun h => 3 ≤ h.gross)).length
    gir_hit := (hs.filter (fun h => h.girHit)).length
    gir_total := (hs.filter (fun h => h.girCounted)).length }

/-- The HVP value `get_my_stats` assigns to one round: the stored
`virtual_handicap` when present; otherwise, when the inline Stableford total
is positive and the handicap index is not null, the unrounded
`od_handicap_index - (normalized - 36)`; otherwise `none`. -/
def statsInlineHVP (stored_vh : Option ℚ) (user_player : Player) (holes_data : List Hole)
    (course_length : String) : Option ℚ :=
  let round_stableford :=
    (statsRound user_player.playing_handicap user_player.scores holes_data course_length).round_stableford
  match stored_vh with
  | some v => some v
  | none =>
    if 0 < round_stableford then
      match user_player.od_handicap_index with
      | some od_handicap_index =>
        let normalized : ℤ :=
          if course_length = "front9" ∨ course_length = "back9" then round_stableford * 2
          else round_stableford
        some (od_handicap_index - ((normalized : ℚ) - 36))
      | none => none
    else none

/-- A Python `datetime.date`. -/
structure PyDate where
  year : ℤ
  month : ℤ
  day : ℤ
  deriving DecidableEq, Repr

/-- Comparison `a <= b` on Python dates (lexicographic). -/
def dateLe (a b : PyDate) : Bool :=
  decide (a.year < b.year ∨ (a.year = b.year ∧
    (a.month < b.month ∨ (a.month = b.month ∧ a.day ≤ b.day))))

/-- The value `date(today.year, today.month, 1)`. -/
def monthStart (today : PyDate) : PyDate := ⟨today.year, today.month, 1⟩

/-- The value of `current_quarter = (today.month - 1) // 3;
date(today.year, current_quarter * 3 + 1, 1)`. -/
def quarterStart (today : PyDate) : PyDate :=
  ⟨today.year, ((today.month - 1).fdiv 3) * 3 + 1, 1⟩

/-- The value `date(today.year, 1, 1)`. -/
def yearStart (today : PyDate) : PyDate := ⟨today.year, 1, 1⟩

/-- The values of `hvp_data` that qualify for a window: all of them for the
all-time window (`none`), otherwise those with a parsed date `>=` the window
start (rounds with an unparseable date never qualify). -/
def windowValues (hvp_data : List (ℚ × Option PyDate)) : Option PyDate → List ℚ
  | none => hvp_data.map (fun vd => vd.1)
  | some start =>
      (hvp_data.filter (fun vd =>
        match vd.2 with
        | some d => dateLe start d
        | none => false)).map (fun vd => vd.1)

/-- The reported value of one HVP window: the window average when the list is
non-empty, passed through `round(x, 1) if x else None` — so an average of
exactly 0 reports `none`. -/
def reportedHvp (vals : List ℚ) : Option ℚ :=
  if vals.isEmpty then none
  else
    let avg := vals.sum / (vals.length : ℚ)
    if avg = 0 then none else some (round1 avg)

/-- The four HVP window values of `get_my_stats`:
(all-time, month, quarter, year). -/
def hvpReport (hvp_data : List (ℚ × Option PyDate)) (today : PyDate) :
    Option ℚ × Option ℚ × Option ℚ × Option ℚ :=
  (reportedHvp (windowValues hvp_data none),
   reportedHvp (windowValues hvp_data (some (monthStart today))),
   reportedHvp (windowValues hvp_data (some (quarterStart today))),
   reportedHvp (windowValues hvp_data (some (yearStart today))))

/-- The function `calculate_playing_handicap_for_backfill` from
`src/backend/app/routers/users.py` — same body as the rounds-router copy. -/
def calculate_playing_handicap_for_backfill (handicap_index : ℚ) (slope : ℤ) (percentage : ℤ) : ℤ :=
  let playing_hcp := (handicap_index * slope) / 113
  pythonRound (playing_hcp * percentage / 100)

/-- The function `calculate_vh_for_backfill` from `src/backend/app/routers/users.py` —
same body as `calculate_virtual_handicap`, with
`calculate_playing_handicap_for_backfill` in the legacy step. -/
def calculate_vh_for_backfill (players : List Player) (course_length : String)
    (holes_data : List Hole) (use_handicap : Bool) (handicap_percentage : ℤ)
    (tees : List Tee) : Option ℚ :=
  match players with
  | [] => none
  | user_player :: _ =>
    if holes_data.isEmpty then none
    else if user_player.scores.isEmpty then none
    else
      match user_player.od_handicap_index with
      | none => none
      | some od_handicap_index =>
        let eff :=
          if user_player.playing_handicap = 0 ∧ 0 < od_handicap_index ∧ ¬ tees.isEmpty then
            match tees.find? (fun t => t.name == user_player.tee_box) with
            | some matching_tee =>
                calculate_playing_handicap_for_backfill od_handicap_index matching_tee.slope
                  handicap_percentage
            | none => user_player.playing_handicap
          else user_player.playing_handicap
        let pts := (holesToCount course_length).filterMap
          (holePoints user_player.scores holes_data eff)
        if pts.isEmpty then none
        else
          let normalized : ℤ :=
            if course_length = "front9" ∨ course_length = "back9" then pts.sum * 2 else pts.sum
          some (round1 (od_handicap_index - ((normalized : ℚ) - 36)))

/-! ## Theorems -/

/-- C1: for every playing handicap `h ≥ 0` and hole stroke index `i ∈ [1,18]`,
the strokes received equal `h div 18 + 1` when `i ≤ h mod 18` and `h div 18`
otherwise — the division/modulus is always by 18 (the definition of
`strokesReceived` carries no hole-count parameter, and
`calculate_virtual_handicap` applies it unchanged to front9/back9 rounds). -/
theorem strokesReceived_eq_allocation (h i : ℤ) (h0 : 0 ≤ h) (hi1 : 1 ≤ i) (hi18 : i ≤ 18) :
    strokesReceived h i = h.fdiv 18 + (if i ≤ h.fmod 18 then 1 else 0) := by
  unfold strokesReceived
  rcases lt_or_eq_of_le h0 with hlt | heq
  · simp [hlt]
  · rw [← heq]
    simp [Int.zero_fdiv, Int.zero_fmod]
    omega

/-- Witness for C1 at `h = 20`, `i = 5`: base 1, remainder 2, `5 ≤ 2` false. -/
theorem strokesReceived_eq_allocation_witness :
    (0 : ℤ) ≤ 20 ∧ (1 : ℤ) ≤ 5 ∧ (5 : ℤ) ≤ 18 ∧
      strokesReceived 20 5 = Int.fdiv 20 18 + (if (5 : ℤ) ≤ Int.fmod 20 18 then 1 else 0) :=
  ⟨by decide, by decide, by decide,
   strokesReceived_eq_allocation 20 5 (by decide) (by decide) (by decide)⟩

/-- C2: the Stableford points of net score `n` against par `p` are exactly the
table value at `d = n − p` (5 / 4 / 3 / 2 / 1 / 0 for d ≤ −3 / −2 / −1 / 0 /
+1 / ≥ +2), the table is monotone non-increasing in `d`, and it saturates at 5
below −3 and at 0 above +2. -/
theorem stableford_matches_table :
    (∀ n p : ℤ, stablefordPoints n p = stablefordTable (n - p)) ∧
    (∀ d e : ℤ, d ≤ e → stablefordTable e ≤ stablefordTable d) ∧
    (∀ d : ℤ, d ≤ -3 → stablefordTable d = 5) ∧
    (∀ d : ℤ, 2 ≤ d → stablefordTable d = 0) := by
  refine ⟨fun n p => rfl, ?_, ?_, ?_⟩
  · intro d e hde
    unfold stablefordTable
    split_ifs <;> omega
  · intro d hd
    unfold stablefordTable
    split_ifs <;> omega
  · intro d hd
    unfold stablefordTable
    split_ifs <;> omega

/-- Witness for C2 at concrete inputs: the table at 0, monotonicity across
`−1 ≤ 1`, and both saturation ends. -/
theorem stableford_matches_table_witness :
    stablefordPoints 4 4 = stablefordTable 0 ∧
      stablefordTable 1 ≤ stablefordTable (-1) ∧
      stablefordTable (-4) = 5 ∧ stablefordTable 3 = 0 :=
  ⟨stableford_matches_table.1 4 4,
   stableford_matches_table.2.1 (-1) 1 (by decide),
   stableford_matches_table.2.2.1 (-4) (by decide),
   stableford_matches_table.2.2.2 3 (by decide)⟩

/-- C9: with the neutral slope 113 and percentage 100, the playing handicap of
any handicap index `h ∈ [0,54]` is just `round(h)`. -/
theorem playing_handicap_neutral (h : ℚ) (h0 : 0 ≤ h) (h54 : h ≤ 54) :
    calculate_playing_handicap h 113 100 = pythonRound h := by
  unfold calculate_playing_handicap
  congr 1
  push_cast
  field_simp

/-- Witness for C9 at `h = 14.2`. -/
theorem playing_handicap_neutral_witness :
    (0 : ℚ) ≤ 71 / 5 ∧ (71 / 5 : ℚ) ≤ 54 ∧
      calculate_playing_handicap (71 / 5) 113 100 = pythonRound (71 / 5) :=
  ⟨by norm_num, by norm_num,
   playing_handicap_neutral (71 / 5) (by norm_num) (by norm_num)⟩

/-- C10: the rounds-router `calculate_virtual_handicap` and the users-router
`calculate_vh_for_backfill` are extensionally equal: on every input tuple they
return the same result. -/
theorem vh_eq_backfill (players : List Player) (course_length : String)
    (holes_data : List Hole) (use_handicap : Bool) (handicap_percentage : ℤ)
    (tees : List Tee) :
    calculate_virtual_handicap players course_length holes_data use_handicap
        handicap_percentage tees =
      calculate_vh_for_backfill players course_length holes_data use_handicap
        handicap_percentage tees := by
  cases players with
  | nil => rfl
  | cons user_player rest =>
    cases hod : user_player.od_handicap_index with
    | none =>
        simp [calculate_virtual_handicap, calculate_vh_for_backfill, hod]
    | some od =>
        simp [calculate_virtual_handicap, calculate_vh_for_backfill, vhPoints,
          effectiveHandicap, hod, calculate_playing_handicap,
          calculate_playing_handicap_for_backfill]

/-- A hole is skipped by the scoring loop of `calculate_virtual_handicap`
exactly when it is not usable; the effective handicap plays no part in the
skip decision. -/
lemma holePoints_eq_none_iff (scores : List (ℕ × Score)) (holes_data : List Hole)
    (eff : ℤ) (n : ℕ) :
    holePoints scores holes_data eff n = none ↔ holeUsable scores holes_data n = false := by
  unfold holePoints holeUsable
  cases lookupScore scores n with
  | none => simp
  | some score =>
    by_cases hs : score.strokes ≤ 0
    · simp [hs]
    · simp only [hs, if_false]
      cases holesLookup holes_data (n : ℤ) <;> simp

/-- The scoring loop of `calculate_virtual_handicap` accumulates nothing
exactly when no in-scope hole is usable. -/
lemma vhPoints_isEmpty_iff (user_player : Player) (course_length : String)
    (holes_data : List Hole) (handicap_percentage : ℤ) (tees : List Tee) :
    (vhPoints user_player course_length holes_data handicap_percentage tees).isEmpty = true ↔
      ∀ n ∈ holesToCount course_length, holeUsable user_player.scores holes_data n = false := by
  rw [List.isEmpty_iff]
  unfold vhPoints
  rw [List.filterMap_eq_nil]
  exact forall₂_congr fun n _ => holePoints_eq_none_iff _ _ _ _

/-- C7: the virtual-handicap computation is total (the embedding is a plain
function) and returns `none` exactly when no usable data exists: the player
list is empty; or — taking the first player — the course holes data is empty,
the player's scores map is empty, the player's handicap index is null, or no
in-scope hole has a scores entry with positive strokes and matching hole
metadata.  Otherwise it returns a value. -/
theorem vh_none_iff :
    (∀ course_length holes_data use_handicap handicap_percentage tees,
      calculate_virtual_handicap [] course_length holes_data use_handicap
        handicap_percentage tees = none) ∧
    (∀ (p : Player) (rest : List Player) course_length holes_data use_handicap
        handicap_percentage tees,
      calculate_virtual_handicap (p :: rest) course_length holes_data use_handicap
          handicap_percentage tees = none ↔
        holes_data = [] ∨ p.scores = [] ∨ p.od_handicap_index = none ∨
          ∀ n ∈ holesToCount course_length, holeUsable p.scores holes_data n = false) := by
  constructor
  · intro course_length holes_data use_handicap handicap_percentage tees
    rfl
  · intro p rest course_length holes_data use_handicap handicap_percentage tees
    by_cases hh : holes_data.isEmpty
    · obtain rfl : holes_data = [] := List.isEmpty_iff.mp hh
      simp [calculate_virtual_handicap]
    · have hh' : holes_data ≠ [] := by simpa [List.isEmpty_iff] using hh
      by_cases hsc : p.scores.isEmpty
      · have hsc' : p.scores = [] := List.isEmpty_iff.mp hsc
        simp [calculate_virtual_handicap, hh, hsc, hsc', hh']
      · have hsc' : p.scores ≠ [] := by simpa [List.isEmpty_iff] using hsc
        cases hod : p.od_handicap_index with
        | none => simp [calculate_virtual_handicap, hh, hsc, hod, hh', hsc']
        | some od =>
          by_cases hp : (vhPoints p course_length holes_data handicap_percentage tees).isEmpty
          · have hforall := (vhPoints_isEmpty_iff p course_length holes_data handicap_percentage tees).mp hp
            simp [calculate_virtual_handicap, hh, hsc, hod, hp, hh', hsc']
            exact hforall
          · simp [calculate_virtual_handicap, hh, hsc, hod, hp, hh', hsc']
            by_contra hno
            refine hp ((vhPoints_isEmpty_iff p course_length holes_data handicap_percentage tees).mpr ?_)
            intro n hn
            cases hu : holeUsable p.scores holes_data n with
            | false => rfl
            | true => exact absurd ⟨n, hn, hu⟩ hno

/-- Witness for C7: an empty player list, and a non-empty one with empty
holes data, both yield `none` via the characterization. -/
theorem vh_none_iff_witness :
    calculate_virtual_handicap [] "18" [⟨1, 4, 1⟩] true 100 [] = none ∧
      calculate_virtual_handicap [⟨some 10, 5, "w", [(1, ⟨4, 2⟩)]⟩] "18" [] true 100 [] = none :=
  ⟨vh_none_iff.1 ("18") [⟨1, 4, 1⟩] true 100 [],
   (vh_none_iff.2 ⟨some 10, 5, "w", [(1, ⟨4, 2⟩)]⟩ [] "18" [] true 100 []).mpr (Or.inl rfl)⟩

/-- Usability of a hole unfolded: a scores entry with positive strokes and a
metadata entry both exist. -/
lemma holeUsable_iff (scores : List (ℕ × Score)) (holes_data : List Hole) (n : ℕ) :
    holeUsable scores holes_data n = true ↔
      ∃ score hole_data, lookupScore scores n = some score ∧ 0 < score.strokes ∧
        holesLookup holes_data (n : ℤ) = some hole_data := by
  unfold holeUsable
  cases hs : lookupScore scores n with
  | none => simp
  | some s =>
    by_cases hpos : s.strokes ≤ 0
    · simp [hpos]
    · simp [hpos, Option.isSome_iff_exists]
      intro x _
      omega

/-- A net score equal to par scores exactly 2 Stableford points. -/
lemma stablefordPoints_par (a : ℤ) : stablefordPoints a a = 2 := by
  show (if (a - a : ℤ) ≤ -3 then (5 : ℤ)
    else if a - a = -2 then 4 else if a - a = -1 then 3
    else if a - a = 0 then 2 else if a - a = 1 then 1 else 0) = 2
  split_ifs <;> omega

/-- A `filterMap` whose function returns `some c` on every element of the list
is the constant map. -/
lemma filterMap_const_some {f : ℕ → Option ℤ} (l : List ℕ) (c : ℤ)
    (h : ∀ n ∈ l, f n = some c) : l.filterMap f = l.map (fun _ => c) := by
  induction l with
  | nil => rfl
  | cons a l ih =>
    rw [List.filterMap_cons, List.map_cons, h a (List.mem_cons_self a l),
      ih (fun n hn => h n (List.mem_cons_of_mem a hn))]

/-- C3 (amended): for an 18-hole round in which every one of the 18 holes is
usable and has net score equal to par (Stableford total 36), the virtual
handicap is `round(h, 1)` — the first player's handicap index rounded to one
decimal, hence equal to the handicap index exactly whenever the index carries
at most one decimal place. -/
theorem vh_round_trip_net_par (p : Player) (rest : List Player) (holes_data : List Hole)
    (use_handicap : Bool) (handicap_percentage : ℤ) (tees : List Tee) (h : ℚ)
    (hod : p.od_handicap_index = some h)
    (hnet : ∀ n ∈ holesToCount ("18"),
      holeUsable p.scores holes_data n = true ∧
        ((lookupScore p.scores n).map (fun s => s.strokes)).getD 0 -
            strokesReceived
              (effectiveHandicap h p.playing_handicap p.tee_box handicap_percentage tees)
              (((holesLookup holes_data (n : ℤ)).map (fun hd => hd.handicap)).getD 1) =
          ((holesLookup holes_data (n : ℤ)).map (fun hd => hd.par)).getD 4) :
    calculate_virtual_handicap (p :: rest) "18" holes_data use_handicap handicap_percentage
        tees =
      some (round1 h) := by
  have hpts : ∀ n ∈ holesToCount ("18"),
      holePoints p.scores holes_data
        (effectiveHandicap h p.playing_handicap p.tee_box handicap_percentage tees) n =
        some 2 := by
    intro n hn
    obtain ⟨husable, hnp⟩ := hnet n hn
    obtain ⟨s, hd, hs, hpos, hl⟩ := (holeUsable_iff _ _ _).mp husable
    rw [hs, hl] at hnp
    simp only [Option.map_some', Option.getD_some] at hnp
    simp only [holePoints, hs, hl, if_neg (not_le.mpr hpos)]
    rw [hnp, stablefordPoints_par]
  obtain ⟨husable1, _⟩ := hnet 1 (by decide)
  obtain ⟨s1, hd1, hs1, _, hl1⟩ := (holeUsable_iff _ _ _).mp husable1
  have hscne : p.scores.isEmpty = false := by
    cases hsc : p.scores with
    | nil => rw [hsc] at hs1; simp [lookupScore] at hs1
    | cons a l => rfl
  have hhne : holes_data.isEmpty = false := by
    cases hhd : holes_data with
    | nil => rw [hhd] at hl1; simp [holesLookup] at hl1
    | cons a l => rfl
  have hvp : vhPoints p ("18") holes_data handicap_percentage tees =
      (holesToCount ("18")).map (fun _ => (2 : ℤ)) := by
    unfold vhPoints
    rw [hod]
    simp only [Option.getD_some]
    exact filterMap_const_some _ _ hpts
  simp only [calculate_virtual_handicap, hhne, hscne, hod, hvp, Bool.false_eq_true,
    if_false]
  have hlist : ((holesToCount ("18")).map (fun _ => (2 : ℤ))) = List.replicate 18 2 := by decide
  rw [hlist]
  norm_num [List.isEmpty_iff, holesToCount]
  congr 1
  rw [if_neg (by decide : ¬("18" = "front9" ∨ "18" = "back9"))]
  norm_num

/-- C3 counterexample: an 18-hole round with every net score equal to par and
handicap index 14.25 computes virtual handicap 14.2 (`round(14.25, 1)` with
half-to-even), which is not the handicap index exactly. -/
theorem vh_round_trip_counterexample :
    calculate_virtual_handicap
        [⟨some (57 / 4), 0, "w", (List.range' 1 18).map (fun n => (n, ⟨4, 2⟩))⟩]
        "18" ((List.range' 1 18).map (fun n => ⟨(n : ℤ), 4, (n : ℤ)⟩)) true 100 [] =
      some (71 / 5) ∧ (71 / 5 : ℚ) ≠ 57 / 4 := by
  constructor
  · decide
  · norm_num

/-- Witness for C3 (amended) at the same concrete inputs with index 14.25. -/
theorem vh_round_trip_net_par_witness :
    calculate_virtual_handicap
        [⟨some (57 / 4), 0, "w", (List.range' 1 18).map (fun n => (n, ⟨4, 2⟩))⟩]
        "18" ((List.range' 1 18).map (fun n => ⟨(n : ℤ), 4, (n : ℤ)⟩)) true 100 [] =
      some (round1 (57 / 4)) := by
  refine vh_round_trip_net_par _ [] _ true 100 [] (57 / 4) rfl ?_
  decide

/-- A non-nil list is not `isEmpty`. -/
lemma isEmpty_false_of_ne_nil {α : Type} {l : List α} (h : l ≠ []) : l.isEmpty = false := by
  cases l with
  | nil => exact absurd rfl h
  | cons a t => rfl

/-- C5: a front9 or back9 round whose in-scope holes yield total Stableford
points `P` produces the same virtual handicap as an 18-hole round with the
same first player's handicap index whose in-scope holes yield total points
`2P` (both rounds having at least one counted hole and passing the data
guards). -/
theorem vh_nine_hole_normalization
    (pA pB : Player) (restA restB : List Player) (holesA holesB : List Hole)
    (useA useB : Bool) (pctA pctB : ℤ) (teesA teesB : List Tee) (h : ℚ) (P : ℤ)
    (cl9 : String) (hcl9 : cl9 = "front9" ∨ cl9 = "back9")
    (hodA : pA.od_handicap_index = some h) (hodB : pB.od_handicap_index = some h)
    (hscA : pA.scores ≠ []) (hscB : pB.scores ≠ [])
    (hhA : holesA ≠ []) (hhB : holesB ≠ [])
    (hptsA : (vhPoints pA cl9 holesA pctA teesA).sum = P)
    (hneA : vhPoints pA cl9 holesA pctA teesA ≠ [])
    (hptsB : (vhPoints pB ("18") holesB pctB teesB).sum = 2 * P)
    (hneB : vhPoints pB ("18") holesB pctB teesB ≠ []) :
    calculate_virtual_handicap (pA :: restA) cl9 holesA useA pctA teesA =
      calculate_virtual_handicap (pB :: restB) "18" holesB useB pctB teesB := by
  simp only [calculate_virtual_handicap, hodA, hodB,
    isEmpty_false_of_ne_nil hscA, isEmpty_false_of_ne_nil hscB,
    isEmpty_false_of_ne_nil hhA, isEmpty_false_of_ne_nil hhB,
    isEmpty_false_of_ne_nil hneA, isEmpty_false_of_ne_nil hneB,
    Bool.false_eq_true, if_false]
  rw [if_pos hcl9,
    if_neg (by decide : ¬("18" = "front9" ∨ "18" = "back9")), hptsA, hptsB]
  congr 1
  congr 1
  push_cast
  ring_nf

/-- Witness for C5: a 9-hole all-par-net back9 round (18 points, holes 10-18)
against an 18-hole all-par-net round (36 points), same handicap index 10. -/
theorem vh_nine_hole_normalization_witness :
    calculate_virtual_handicap
        [⟨some 10, 0, "w", (List.range' 10 9).map (fun n => (n, ⟨4, 2⟩))⟩]
        "back9" ((List.range' 10 9).map (fun n => Hole.mk n 4 n)) true 100 [] =
      calculate_virtual_handicap
        [⟨some 10, 0, "w", (List.range' 1 18).map (fun n => (n, ⟨4, 2⟩))⟩]
        "18" ((List.range' 1 18).map (fun n => Hole.mk n 4 n)) true 100 [] := by
  refine vh_nine_hole_normalization _ _ [] [] _ _ true true 100 100 [] [] 10 18
    ("back9") (Or.inr rfl) rfl rfl (by decide) (by decide) (by decide) (by decide)
    (by decide) (by decide) (by decide) (by decide)

/-- C4 (amended): in the Virtual Handicap Calculator, a hole with no scores
entry or with strokes ≤ 0 contributes nothing (the loop skips it); in the
Statistics Aggregator of `get_my_stats`, a hole is skipped exactly when its
scores entry is absent or its hole metadata is missing — a present entry with
strokes ≤ 0 is NOT skipped there and is accumulated. -/
theorem skipped_holes_contribute_nothing :
    (∀ scores holes_data eff n, lookupScore scores n = none →
      holePoints scores holes_data eff n = none) ∧
    (∀ scores holes_data eff n score, lookupScore scores n = some score →
      score.strokes ≤ 0 → holePoints scores holes_data eff n = none) ∧
    (∀ playing_hcp scores holes_data n,
      statsHole playing_hcp scores holes_data n = none ↔
        lookupScore scores n = none ∨ holesLookup holes_data (n : ℤ) = none) := by
  refine ⟨?_, ?_, ?_⟩
  · intro scores holes_data eff n hs
    unfold holePoints
    rw [hs]
  · intro scores holes_data eff n score hs hnp
    unfold holePoints
    rw [hs]
    simp [hnp]
  · intro playing_hcp scores holes_data n
    unfold statsHole
    cases hs : lookupScore scores n with
    | none => simp
    | some s =>
      cases hl : holesLookup holes_data (n : ℤ) with
      | none => simp
      | some hd => simp

/-- Witness for C4 (amended): an absent entry and a strokes-0 entry are both
skipped by the calculator; an absent entry is skipped by the aggregator. -/
theorem skipped_holes_contribute_nothing_witness :
    holePoints [] [⟨1, 4, 1⟩] 0 1 = none ∧
      holePoints [(1, ⟨0, 0⟩)] [⟨1, 4, 1⟩] 0 1 = none ∧
      statsHole 0 [] [⟨1, 4, 1⟩] 1 = none :=
  ⟨skipped_holes_contribute_nothing.1 [] [⟨1, 4, 1⟩] 0 1 (by decide),
   skipped_holes_contribute_nothing.2.1 [(1, ⟨0, 0⟩)] [⟨1, 4, 1⟩] 0 1 ⟨0, 0⟩
     (by decide) (by decide),
   (skipped_holes_contribute_nothing.2.2 0 [] [⟨1, 4, 1⟩] 1).mpr (Or.inl (by decide))⟩

/-- C4 counterexample: in the Statistics Aggregator, an in-scope hole whose
scores entry has strokes = 0 (metadata present) DOES contribute: it enters the
score-distribution count, the per-par stroke list, and adds 5 Stableford
points (net 0 against par 4) — the claim says it contributes nothing. -/
theorem stats_counts_nonpositive_strokes :
    (statsRound 0 [(1, ⟨0, 0⟩)] [⟨1, 4, 1⟩] "18").total_holes_for_distribution = 1 ∧
      (statsRound 0 [(1, ⟨0, 0⟩)] [⟨1, 4, 1⟩] "18").round_stableford = 5 ∧
      (statsRound 0 [(1, ⟨0, 0⟩)] [⟨1, 4, 1⟩] "18").par4_strokes = [0] := by
  decide

/-- C6 (amended): for each of the four HVP windows (all-time, current month,
current quarter, current year), the reported value is `round(mean, 1)` of the
window's qualifying values (a value qualifies when its parsed date is `>=` the
window start; every value qualifies for all-time, values with unparseable
dates only there), and the reported value is null exactly when no value
qualifies OR the window's mean is exactly 0 (Python truthiness on the mean
suppresses a zero average). -/
theorem hvp_windows_report (hvp_data : List (ℚ × Option PyDate)) (today : PyDate) :
    ∀ start ∈ [none, some (monthStart today), some (quarterStart today),
        some (yearStart today)],
      (reportedHvp (windowValues hvp_data start) = none ↔
        windowValues hvp_data start = [] ∨ (windowValues hvp_data start).sum = 0) ∧
      (∀ q, reportedHvp (windowValues hvp_data start) = some q →
        q = round1 ((windowValues hvp_data start).sum /
          ((windowValues hvp_data start).length : ℚ))) := by
  intro start _
  constructor
  · unfold reportedHvp
    by_cases hv : (windowValues hvp_data start).isEmpty
    · simp [hv, List.isEmpty_iff.mp hv]
    · have hne : windowValues hvp_data start ≠ [] := by
        simpa [List.isEmpty_iff] using hv
      have hlen : ((windowValues hvp_data start).length : ℚ) ≠ 0 := by
        simpa using hne
      by_cases hz : (windowValues hvp_data start).sum /
          ((windowValues hvp_data start).length : ℚ) = 0
      · have hz' : (windowValues hvp_data start).sum = 0 := by
          rcases div_eq_zero_iff.mp hz with h0 | h0
          · exact h0
          · exact absurd h0 hlen
        simp [hv, hz, hz']
      · have hz' : (windowValues hvp_data start).sum ≠ 0 := fun h0 => hz (by rw [h0]; simp)
        simp [hv, hz, hne, hz']
  · intro q hq
    unfold reportedHvp at hq
    by_cases hv : (windowValues hvp_data start).isEmpty
    · simp [hv] at hq
    · by_cases hz : (windowValues hvp_data start).sum /
          ((windowValues hvp_data start).length : ℚ) = 0
      · simp [hv, hz] at hq
      · simp [hv, hz] at hq
        exact hq.symm

/-- C6 counterexample: one round with virtual handicap 0.0 dated today
qualifies for all four windows, yet every reported window value is null —
refuting the null-iff-zero-rounds-qualify property. -/
theorem hvp_windows_counterexample :
    hvpReport [(0, some ⟨2026, 10, 12⟩)] ⟨2026, 10, 12⟩ = (none, none, none, none) ∧
      (windowValues [((0 : ℚ), some (⟨2026, 10, 12⟩ : PyDate))]
        (some (monthStart ⟨2026, 10, 12⟩))).length = 1 := by
  constructor
  · decide
  · decide

/-- Witness for C6 (amended) on the all-time window of a one-round history
with value 5: the characterization applied at concrete data. -/
theorem hvp_windows_report_witness :
    reportedHvp (windowValues [((5 : ℚ), some (⟨2026, 1, 2⟩ : PyDate))] none) = none ↔
      windowValues [((5 : ℚ), some (⟨2026, 1, 2⟩ : PyDate))] none = [] ∨
        (windowValues [((5 : ℚ), some (⟨2026, 1, 2⟩ : PyDate))] none).sum = 0 :=
  (hvp_windows_report [((5 : ℚ), some (⟨2026, 1, 2⟩ : PyDate))] ⟨2026, 1, 2⟩ none
    (by decide)).1

/-- When the hole's recorded strokes are positive, the calculator's per-hole
result is the points field of the aggregator's per-hole result. -/
lemma holePoints_eq_statsHole_points (playing_hcp : ℤ) (scores : List (ℕ × Score))
    (holes_data : List Hole) (n : ℕ)
    (hpos : Option.all (fun s => decide (0 < s.strokes)) (lookupScore scores n) = true) :
    holePoints scores holes_data playing_hcp n =
      (statsHole playing_hcp scores holes_data n).map (fun hs => hs.points) := by
  unfold holePoints statsHole
  cases hs : lookupScore scores n with
  | none => rfl
  | some s =>
    rw [hs] at hpos
    simp only [Option.all] at hpos
    have hp : 0 < s.strokes := of_decide_eq_true hpos
    dsimp only
    rw [if_neg (not_le.mpr hp)]
    cases holesLookup holes_data (n : ℤ) <;> rfl

/-- Over a list of holes with positive recorded strokes, the calculator's
points list is the aggregator's per-hole list mapped to its points field. -/
lemma filterMap_holePoints_eq (playing_hcp : ℤ) (scores : List (ℕ × Score))
    (holes_data : List Hole) (l : List ℕ)
    (hpos : ∀ n ∈ l,
      Option.all (fun s => decide (0 < s.strokes)) (lookupScore scores n) = true) :
    l.filterMap (holePoints scores holes_data playing_hcp) =
      (l.filterMap (statsHole playing_hcp scores holes_data)).map (fun hs => hs.points) := by
  induction l with
  | nil => rfl
  | cons a t ih =>
    rw [List.filterMap_cons, List.filterMap_cons,
      holePoints_eq_statsHole_points playing_hcp scores holes_data a
        (hpos a (List.mem_cons_self a t)),
      ih (fun n hn => hpos n (List.mem_cons_of_mem a hn))]
    cases statsHole playing_hcp scores holes_data a <;> simp

/-- C8 (amended): for a round with no persisted virtual_handicap, whenever the
aggregator's inline Stableford total is positive, the stored playing handicap
is nonzero (so the calculator's legacy-recompute path cannot fire), and every
in-scope scores entry has positive strokes, the aggregator's inline HVP value
`v` is exactly the calculator's value *before* its final rounding: the
calculator returns `round(v, 1)`. -/
theorem stats_inline_hvp_matches_calculator
    (p : Player) (rest : List Player) (holes_data : List Hole) (course_length : String)
    (use_handicap : Bool) (handicap_percentage : ℤ) (tees : List Tee) (od : ℚ)
    (hod : p.od_handicap_index = some od)
    (hph : p.playing_handicap ≠ 0)
    (hholes : holes_data ≠ []) (hsc : p.scores ≠ [])
    (hpos : ∀ n ∈ holesToCount course_length,
      Option.all (fun s => decide (0 < s.strokes)) (lookupScore p.scores n) = true)
    (hstb : 0 <
      (statsRound p.playing_handicap p.scores holes_data course_length).round_stableford) :
    ∃ v, statsInlineHVP none p holes_data course_length = some v ∧
      calculate_virtual_handicap (p :: rest) course_length holes_data use_handicap
        handicap_percentage tees = some (round1 v) := by
  have heff : effectiveHandicap od p.playing_handicap p.tee_box handicap_percentage tees =
      p.playing_handicap := by
    unfold effectiveHandicap
    rw [if_neg (fun hc => hph hc.1)]
  have hrs : (statsRound p.playing_handicap p.scores holes_data course_length).round_stableford =
      (((holesToCount course_length).filterMap
        (statsHole p.playing_handicap p.scores holes_data)).map (fun hs => hs.points)).sum := rfl
  have hpts : vhPoints p course_length holes_data handicap_percentage tees =
      ((holesToCount course_length).filterMap
        (statsHole p.playing_handicap p.scores holes_data)).map (fun hs => hs.points) := by
    unfold vhPoints
    rw [hod]
    simp only [Option.getD_some]
    rw [heff]
    exact filterMap_holePoints_eq _ _ _ _ hpos
  have hsum : (vhPoints p course_length holes_data handicap_percentage tees).sum =
      (statsRound p.playing_handicap p.scores holes_data course_length).round_stableford := by
    rw [hpts, hrs]
  have hne : vhPoints p course_length holes_data handicap_percentage tees ≠ [] := by
    intro h0
    have hsum' := hsum
    rw [h0] at hsum'
    simp at hsum'
    omega
  refine ⟨od - (((if course_length = "front9" ∨ course_length = "back9"
      then (statsRound p.playing_handicap p.scores holes_data course_length).round_stableford * 2
      else (statsRound p.playing_handicap p.scores holes_data
        course_length).round_stableford) : ℤ) - 36), ?_, ?_⟩
  · simp [statsInlineHVP, hod, hstb]
  · simp only [calculate_virtual_handicap, isEmpty_false_of_ne_nil hholes,
      isEmpty_false_of_ne_nil hsc, hod, isEmpty_false_of_ne_nil hne, Bool.false_eq_true,
      if_false]
    rw [hsum]

/-- C8 counterexample: a finished round with one scored hole (strokes 20, 0
Stableford points) and no stored virtual_handicap: the aggregator's inline HVP
is `none` (its Stableford total is 0), while the calculator returns 46
(`10 − (0 − 36)`) for the same round and course data. -/
theorem stats_inline_hvp_counterexample :
    statsInlineHVP none ⟨some 10, 5, "w", [(1, ⟨20, 2⟩)]⟩ [⟨1, 4, 1⟩] "18" = none ∧
      calculate_virtual_handicap [⟨some 10, 5, "w", [(1, ⟨20, 2⟩)]⟩] "18" [⟨1, 4, 1⟩]
        true 100 [] = some 46 := by
  constructor
  · decide
  · decide

/-- Witness for C8 (amended): one 4-stroke hole against par 4 with playing
handicap 5 (3 points); the inline value and the calculator agree up to the
final rounding. -/
theorem stats_inline_hvp_matches_calculator_witness :
    ∃ v, statsInlineHVP none ⟨some 10, 5, "w", [(1, ⟨4, 2⟩)]⟩ [⟨1, 4, 1⟩] "18" = some v ∧
      calculate_virtual_handicap [⟨some 10, 5, "w", [(1, ⟨4, 2⟩)]⟩] "18" [⟨1, 4, 1⟩]
        true 100 [] = some (round1 v) :=
  stats_inline_hvp_matches_calculator ⟨some 10, 5, "w", [(1, ⟨4, 2⟩)]⟩ [] [⟨1, 4, 1⟩] "18"
    true 100 [] 10 rfl (by decide) (by decide) (by decide) (by decide) (by decide)
